import Mathlib

/-!
A shallow embedding of the lead-tracking pipeline in `get_emails.py`, together
with theorems settling the specification claims about it.  Python strings are
modelled as Lean `String` (ASCII fragment), Python lists as `List`, Python
dicts as insertion-ordered association lists, machine words as `Nat` reduced
modulo `2 ^ 32`, and fallible Python code as explicit error results.
-/

namespace EmailBot

/-! ## Python string primitives (ASCII fragment) -/

/-- Python `str.lower` on an ASCII character. -/
def pyLowerChar (c : Char) : Char :=
  if 'A' ≤ c ∧ c ≤ 'Z' then Char.ofNat (c.toNat + 32) else c

/-- Python `str.upper` on an ASCII character. -/
def pyUpperChar (c : Char) : Char :=
  if 'a' ≤ c ∧ c ≤ 'z' then Char.ofNat (c.toNat - 32) else c

/-- Python `str.lower` (ASCII fragment). -/
def pyLower (s : String) : String := ⟨s.data.map pyLowerChar⟩

/-- ASCII letter test (models Python `str.isalpha` on ASCII text). -/
def isAsciiAlpha (c : Char) : Bool :=
  ('a' ≤ c && c ≤ 'z') || ('A' ≤ c && c ≤ 'Z')

/-- Helper for `pyTitle`: the boolean tracks whether the previous character
was alphabetic. -/
def pyTitleAux : Bool → List Char → List Char
  | _, [] => []
  | prevAlpha, c :: rest =>
    let c' := if isAsciiAlpha c then
        (if prevAlpha then pyLowerChar c else pyUpperChar c)
      else c
    c' :: pyTitleAux (isAsciiAlpha c) rest

/-- Python `str.title` (ASCII fragment): the first letter of every
alphabetic run is upper-cased, the rest lower-cased. -/
def pyTitle (s : String) : String := ⟨pyTitleAux false s.data⟩

/-- Python `str.split(sep)` for a one-character separator, on the character
list.  `[] ↦ [[]]`, matching `''.split(c) == ['']`. -/
def splitOnChar (sep : Char) : List Char → List (List Char)
  | [] => [[]]
  | c :: rest =>
    match splitOnChar sep rest with
    | [] => [[]]
    | g :: gs => if c = sep then [] :: g :: gs else (c :: g) :: gs

/-- Python `str.split(sep)` for a one-character separator. -/
def pySplit (sep : Char) (s : String) : List String :=
  (splitOnChar sep s.data).map (fun l => ⟨l⟩)

/-- Python `c in s` membership of a character in a string. -/
def pyContains (s : String) (c : Char) : Bool := s.data.elem c

/-- Python `sep.join(parts)` for the newline separator. -/
def joinNL (parts : List String) : String := String.intercalate "\n" parts

/-- Python `a < b` on strings: lexicographic by code point. -/
def pyStrLt : List Char → List Char → Bool
  | [], [] => false
  | [], _ :: _ => true
  | _ :: _, [] => false
  | a :: as, b :: bs =>
    if a.toNat < b.toNat then true
    else if b.toNat < a.toNat then false
    else pyStrLt as bs

/-- Python `a < b` on strings. -/
def pyLt (a b : String) : Bool := pyStrLt a.data b.data

/-- Errors that the embedded Python fragments can raise. -/
inductive PyErr where
  | indexError
  | attributeError
deriving DecidableEq, Repr

/-- Python list indexing `l[i]` for a non-negative index: out of range
raises `IndexError`. -/
def pyIndex {α : Type} (l : List α) (i : Nat) : Except PyErr α :=
  match l.get? i with
  | some x => Except.ok x
  | none => Except.error PyErr.indexError

/-! ## UTF-8 encoding (models Python `str.encode()`) -/

/-- UTF-8 byte sequence of a single code point. -/
def utf8Bytes (n : Nat) : List Nat :=
  if n < 0x80 then [n]
  else if n < 0x800 then [0xc0 + n / 0x40, 0x80 + n % 0x40]
  else if n < 0x10000 then
    [0xe0 + n / 0x1000, 0x80 + n / 0x40 % 0x40, 0x80 + n % 0x40]
  else
    [0xf0 + n / 0x40000, 0x80 + n / 0x1000 % 0x40, 0x80 + n / 0x40 % 0x40,
      0x80 + n % 0x40]

/-- Python `s.encode()`: the UTF-8 bytes of a string. -/
def strBytes (s : String) : List Nat := s.data.flatMap (fun c => utf8Bytes c.toNat)

/-! ## MD5 (models Python `hashlib.md5`) -/

/-- `2 ^ 32`, the modulus for MD5 word arithmetic. -/
def w32 : Nat := 4294967296

/-- Addition modulo `2 ^ 32`. -/
def add32 (a b : Nat) : Nat := (a + b) % w32

/-- Left rotation of a 32-bit word by `s` places. -/
def rotl32 (x s : Nat) : Nat := (x * 2 ^ s + x / 2 ^ (32 - s)) % w32

/-- Bitwise complement of a 32-bit word. -/
def not32 (x : Nat) : Nat := (w32 - 1) - x

/-- The 64 MD5 sine-derived round constants `⌊|sin (i + 1)| · 2 ^ 32⌋`. -/
def md5K : List Nat :=
  [0xd76aa478, 0xe8c7b756, 0x242070db, 0xc1bdceee,
   0xf57c0faf, 0x4787c62a, 0xa8304613, 0xfd469501,
   0x698098d8, 0x8b44f7af, 0xffff5bb1, 0x895cd7be,
   0x6b901122, 0xfd987193, 0xa679438e, 0x49b40821,
   0xf61e2562, 0xc040b340, 0x265e5a51, 0xe9b6c7aa,
   0xd62f105d, 0x02441453, 0xd8a1e681, 0xe7d3fbc8,
   0x21e1cde6, 0xc33707d6, 0xf4d50d87, 0x455a14ed,
   0xa9e3e905, 0xfcefa3f8, 0x676f02d9, 0x8d2a4c8a,
   0xfffa3942, 0x8771f681, 0x6d9d6122, 0xfde5380c,
   0xa4beea44, 0x4bdecfa9, 0xf6bb4b60, 0xbebfbc70,
   0x289b7ec6, 0xeaa127fa, 0xd4ef3085, 0x04881d05,
   0xd9d4d039, 0xe6db99e5, 0x1fa27cf8, 0xc4ac5665,
   0xf4292244, 0x432aff97, 0xab9423a7, 0xfc93a039,
   0x655b59c3, 0x8f0ccc92, 0xffeff47d, 0x85845dd1,
   0x6fa87e4f, 0xfe2ce6e0, 0xa3014314, 0x4e0811a1,
   0xf7537e82, 0xbd3af235, 0x2ad7d2bb, 0xeb86d391]

/-- The 64 MD5 per-round left-rotation amounts. -/
def md5S : List Nat :=
  [7, 12, 17, 22, 7, 12, 17, 22, 7, 12, 17, 22, 7, 12, 17, 22,
   5, 9, 14, 20, 5, 9, 14, 20, 5, 9, 14, 20, 5, 9, 14, 20,
   4, 11, 16, 23, 4, 11, 16, 23, 4, 11, 16, 23, 4, 11, 16, 23,
   6, 10, 15, 21, 6, 10, 15, 21, 6, 10, 15, 21, 6, 10, 15, 21]

/-- Little-endian byte list of `n`, `len` bytes long. -/
def toLEBytes : Nat → Nat → List Nat
  | _, 0 => []
  | n, len + 1 => n % 256 :: toLEBytes (n / 256) len

/-- MD5 padding: append `0x80`, zero-pad to 56 mod 64, then the bit length
as a 64-bit little-endian quantity. -/
def md5pad (msg : List Nat) : List Nat :=
  let len := msg.length
  let zeros := (119 - len % 64) % 64
  msg ++ [0x80] ++ List.replicate zeros 0 ++ toLEBytes (len * 8 % 2 ^ 64) 8

/-- Group a byte list into little-endian 32-bit words (drops an incomplete
trailing group; MD5 input is always a multiple of 4 bytes after padding). -/
def bytesToWords : List Nat → List Nat
  | b0 :: b1 :: b2 :: b3 :: rest =>
    (b0 + b1 * 256 + b2 * 65536 + b3 * 16777216) :: bytesToWords rest
  | _ => []

/-- Group a word list into 16-word blocks (padded MD5 input is always a
multiple of 16 words). -/
def wordsToBlocks : List Nat → List (List Nat)
  | [] => []
  | w0 :: w1 :: w2 :: w3 :: w4 :: w5 :: w6 :: w7 ::
    w8 :: w9 :: w10 :: w11 :: w12 :: w13 :: w14 :: w15 :: rest =>
    [w0, w1, w2, w3, w4, w5, w6, w7, w8, w9, w10, w11, w12, w13, w14, w15] ::
      wordsToBlocks rest
  | l => [l]

/-- One MD5 round: `i` is the round index, `m` the 16-word block. -/
def md5round (m : List Nat) (st : Nat × Nat × Nat × Nat) (i : Nat) :
    Nat × Nat × Nat × Nat :=
  let a := st.1
  let b := st.2.1
  let c := st.2.2.1
  let d := st.2.2.2
  let f :=
    if i < 16 then (b &&& c) ||| (not32 b &&& d)
    else if i < 32 then (d &&& b) ||| (not32 d &&& c)
    else if i < 48 then b ^^^ c ^^^ d
    else c ^^^ (b ||| not32 d)
  let g :=
    if i < 16 then i
    else if i < 32 then (5 * i + 1) % 16
    else if i < 48 then (3 * i + 5) % 16
    else (7 * i) % 16
  let rot := rotl32 (add32 (add32 a f) (add32 (md5K.getD i 0) (m.getD g 0)))
      (md5S.getD i 0)
  (d, add32 b rot, b, c)

/-- Process one 16-word block, updating the four-word MD5 state. -/
def md5block (st : Nat × Nat × Nat × Nat) (m : List Nat) :
    Nat × Nat × Nat × Nat :=
  let r := (List.range 64).foldl (md5round m) st
  (add32 st.1 r.1, add32 st.2.1 r.2.1, add32 st.2.2.1 r.2.2.1,
    add32 st.2.2.2 r.2.2.2)

/-- The MD5 digest of a byte list, as 16 bytes. -/
def md5digest (msg : List Nat) : List Nat :=
  let blocks := wordsToBlocks (bytesToWords (md5pad msg))
  let st := blocks.foldl md5block (0x67452301, 0xefcdab89, 0x98badcfe, 0x10325476)
  toLEBytes st.1 4 ++ toLEBytes st.2.1 4 ++ toLEBytes st.2.2.1 4 ++
    toLEBytes st.2.2.2 4

/-- Lower-case hexadecimal digit. -/
def hexDigit (n : Nat) : Char :=
  if n < 10 then Char.ofNat (48 + n) else Char.ofNat (87 + n)

/-- Python `hashlib.md5(bs).hexdigest()`: 32 lower-case hex characters. -/
def md5hex (msg : List Nat) : String :=
  ⟨msg |> md5digest |>.flatMap (fun b => [hexDigit (b / 16), hexDigit (b % 16)])⟩

/-! ## Data model -/

/-- The classification dictionary returned by `GeminiParser.parse_email` for a
lead.  Optional dict keys are modelled as `Option`; string keys whose absence
the code treats like the empty string are modelled as `String`. -/
structure Parsed where
  is_lead : Bool
  lead_status : Option String
  has_meeting : Bool
  subject : String
  date : String
  start_time : String
  meeting_type : Option String
  action_items : String
  deadline : String
deriving DecidableEq, Repr

/-- The `EmailData` dataclass. -/
structure EmailData where
  id : String
  sender_name : String
  sender_email : String
  subject : String
  received : String
  body_preview : String
  is_lead : Bool := false
  parsed_data : Option Parsed := none
  calendar_event_id : Option String := none
deriving DecidableEq, Repr

/-- The `OpportunityData` dataclass.  `folder_link` holds the value returned
by `SharePointManager.create_folder_for_lead`, which is `None` on failure. -/
structure OpportunityData where
  id : String
  contact_name : String
  company : String
  email : String
  phone : String
  opportunity_title : String
  lead_status : String
  notes : String
  last_contacted : String
  folder_link : Option String
deriving DecidableEq, Repr

/-! ## Python dicts as insertion-ordered association lists -/

/-- Python `d.get(k)` / `k in d`: the value at a key, if present. -/
def dictLookup {β : Type} (k : String) : List (String × β) → Option β
  | [] => none
  | (k', v) :: rest => if k' = k then some v else dictLookup k rest

/-- Python `d[k] = v`: overwrite an existing key in place, else append. -/
def dictSet {β : Type} (d : List (String × β)) (k : String) (v : β) :
    List (String × β) :=
  match d with
  | [] => [(k, v)]
  | (k', v') :: rest =>
    if k' = k then (k, v) :: rest else (k', v') :: dictSet rest k v

/-! ## Opportunity identifiers (lines 443 and 331 of the source) -/

/-- The identifier computed in `LeadTracker.generate_opportunities`:
`hashlib.md5(email.sender_email.lower().encode()).hexdigest()[:8]`. -/
def generateOppId (sender_email : String) : String :=
  (md5hex (strBytes (pyLower sender_email))).take 8

/-- The `id_gen` lambda in `ExcelReportGenerator._update_interaction_log_sheet`:
`hashlib.md5(email.lower().encode()).hexdigest()[:8]`. -/
def interactionLogIdGen (email : String) : String :=
  (md5hex (strBytes (pyLower email))).take 8

/-! ## Interaction history and summarization (lines 351-362 and 452-456) -/

/-- One data row of the "Interaction Log" sheet, as appended by
`_update_interaction_log_sheet`. -/
structure InteractionRow where
  opp_id : String
  meeting_date : String
  meeting_summary : String
  action_items : String
  deadline : String
  meeting_type : String
  timestamp : String
deriving DecidableEq, Repr

/-- `ExcelReportGenerator.get_interaction_history`: the newline-joined lines
`"On {row[6]}, a meeting was logged: {row[2]}"` over the rows matching the
identifier (an empty identifier matches every row, via `not opportunity_id`). -/
def get_interaction_history (log : List InteractionRow)
    (opportunity_id : String) : String :=
  joinNL ((log.filter
      (fun r => opportunity_id = "" || r.opp_id = opportunity_id)).map
    (fun r => "On " ++ r.timestamp ++ ", a meeting was logged: " ++
      r.meeting_summary))

/-- The summarization trigger of `generate_opportunities`:
`len(history.split('\n')) > 3`. -/
def summaryTriggered (log : List InteractionRow) (opp_id : String) : Bool :=
  3 < (pySplit '\n' (get_interaction_history log opp_id)).length

/-- Lines 453-456 of `generate_opportunities`: the notes attached to the
opportunity — the summarizer's output above the threshold, else empty. -/
def computeNotes (summarize : String → String) (log : List InteractionRow)
    (opp_id : String) : String :=
  let history := get_interaction_history log opp_id
  if 3 < (pySplit '\n' history).length then summarize history else ""

/-! ## generate_opportunities (lines 439-466) -/

/-- The company derivation of line 459:
`email.sender_email.split('@')[1].split('.')[0].title()`. -/
def companyOf (sender_email : String) : Except PyErr String := do
  let domain ← pyIndex (pySplit '@' sender_email) 1
  let tok ← pyIndex (pySplit '.' domain) 0
  Except.ok (pyTitle tok)

/-- The external collaborators used by `generate_opportunities`:
folder provisioning, the summarizer, and the committed interaction log. -/
structure GenEnv where
  createFolder : String → Option String
  summarize : String → String
  log : List InteractionRow

/-- The mutable state of one `generate_opportunities` run: the
`opportunities` dict plus the list of identifiers passed to
`create_folder_for_lead` (recording the external side effect). -/
structure GenState where
  opportunities : List (String × OpportunityData)
  folderCalls : List String
deriving DecidableEq, Repr

/-- The loop body of `generate_opportunities` for one email.  When the
identifier is already a key of the dict, line 446 evaluates
`opportunities.get(opp_id, {}).get('last_contacted', '')` — a `.get` call on
the stored `OpportunityData` dataclass, which raises `AttributeError`.
Otherwise the branch is entered with `is_new` true: the folder is
provisioned, the notes computed, and the record built (the company
derivation can raise `IndexError`). -/
def generate_opportunities_step (env : GenEnv) (st : GenState)
    (em : EmailData) : GenState × Option PyErr :=
  let opp_id := generateOppId em.sender_email
  match dictLookup opp_id st.opportunities with
  | some _ => (st, some PyErr.attributeError)
  | none =>
    let folder_link := env.createFolder opp_id
    let st1 : GenState :=
      { st with folderCalls := st.folderCalls ++ [opp_id] }
    let notes := computeNotes env.summarize env.log opp_id
    match companyOf em.sender_email with
    | Except.error e => (st1, some e)
    | Except.ok company =>
      let opp : OpportunityData :=
        { id := opp_id
          contact_name := em.sender_name
          company := company
          email := em.sender_email
          phone := ""
          opportunity_title := "Opportunity with " ++ em.sender_name
          lead_status :=
            match em.parsed_data with
            | some p => p.lead_status.getD "New Lead"
            | none => "New Lead"
          notes := notes
          last_contacted := em.received
          folder_link := folder_link }
      ({ opportunities := dictSet st1.opportunities opp_id opp
         folderCalls := st1.folderCalls }, none)

/-- The loop of `generate_opportunities`; a raised exception propagates,
ending the run with the state reached so far. -/
def generate_opportunities_loop (env : GenEnv) :
    GenState → List EmailData → GenState × Option PyErr
  | st, [] => (st, none)
  | st, em :: rest =>
    match generate_opportunities_step env st em with
    | (st', none) => generate_opportunities_loop env st' rest
    | (st', some e) => (st', some e)

/-- `LeadTracker.generate_opportunities`: fold the loop body over the batch,
starting from the empty dict. -/
def run_generate_opportunities (env : GenEnv) (emails : List EmailData) :
    GenState × Option PyErr :=
  generate_opportunities_loop env ⟨[], []⟩ emails

/-! ## CalendarManager (lines 174-212) -/

/-- The outcome of one `CalendarManager.create_event` call.  The source
signals these as return values `None` (inapplicable or failed HTTP),
`"duplicate_skipped"`, or the created event's id. -/
inductive EventOutcome where
  | notApplicable
  | duplicateSkipped
  | created (eventId : String)
  | failedCreate
deriving DecidableEq, Repr

/-- `CalendarManager._generate_event_fingerprint`:
`md5(f"{subject}|{date}|{start_time}|{email}".lower()).hexdigest()`. -/
def generateEventFingerprint (p : Parsed) (email : String) : String :=
  md5hex (strBytes (pyLower
    (p.subject ++ "|" ++ p.date ++ "|" ++ p.start_time ++ "|" ++ email)))

/-- The guard of line 182: the call proceeds only when `has_meeting`,
`date` and `start_time` are all truthy. -/
def eventApplicable (p : Parsed) : Bool :=
  p.has_meeting && !(p.date == "") && !(p.start_time == "")

/-- The persistent calendar-side state: the in-memory
`processed_events` set and the successive contents written to
`processed_events.pkl` by `save_pickle`. -/
structure CalendarState where
  processed_events : List String
  savedSets : List (List String)
deriving DecidableEq, Repr

/-- `CalendarManager.create_event`.  `httpResp` is the outcome of the
external `POST /me/events` (`some id` for a 201 response, `none`
otherwise); the returned `Bool` records whether that external call was
issued at all. -/
def create_event (httpResp : Option String) (st : CalendarState)
    (parsed : Option Parsed) (sender_email : String) :
    EventOutcome × CalendarState × Bool :=
  match parsed with
  | none => (EventOutcome.notApplicable, st, false)
  | some p =>
    if !eventApplicable p then (EventOutcome.notApplicable, st, false)
    else
      let fingerprint := generateEventFingerprint p sender_email
      if st.processed_events.elem fingerprint then
        (EventOutcome.duplicateSkipped, st, false)
      else
        match httpResp with
        | some event_id =>
          let newSet := st.processed_events ++ [fingerprint]
          (EventOutcome.created event_id,
            ⟨newSet, st.savedSets ++ [newSet]⟩, true)
        | none => (EventOutcome.failedCreate, st, true)

/-- A sequence of `create_event` invocations: each call carries its parsed
classification, attendee address, and external HTTP outcome. -/
def runEvents (st : CalendarState) :
    List (Parsed × String × Option String) →
      CalendarState × List (EventOutcome × Bool)
  | [] => (st, [])
  | (p, em, resp) :: rest =>
    let r := create_event resp st (some p) em
    let f := runEvents r.2.1 rest
    (f.1, (r.1, r.2.2) :: f.2)

/-! ## Opportunity Master upsert (lines 311-328) -/

/-- One data row of the "Opportunities Master" sheet (columns 1-10). -/
structure OppRow where
  opportunity_id : String
  contact_name : String
  company : String
  email : String
  phone : String
  opportunity_title : String
  lead_status : String
  last_contacted : String
  folder_cell : String
  notes : String
deriving DecidableEq, Repr

/-- Python `f"{x}"` on an optional string (`None` renders as `"None"`). -/
def pyStr : Option String → String
  | none => "None"
  | some s => s

/-- The column-9 cell `=HYPERLINK("{folder_link}", "Open Folder")`. -/
def hyperlinkCell (folder_link : Option String) : String :=
  "=HYPERLINK(\x22" ++ pyStr folder_link ++ "\x22, \x22Open Folder\x22)"

/-- The full row appended for a new opportunity (lines 323-328). -/
def newOppRow (d : OpportunityData) : OppRow :=
  ⟨d.id, d.contact_name, d.company, d.email, d.phone, d.opportunity_title,
    d.lead_status, d.last_contacted, hyperlinkCell d.folder_link, d.notes⟩

/-- The in-place update of lines 318-321: columns 7 and 8 always, column 10
only when the new notes value is truthy. -/
def updateRowCells (r : OppRow) (d : OpportunityData) : OppRow :=
  let r1 := { r with lead_status := d.lead_status,
                     last_contacted := d.last_contacted }
  if d.notes = "" then r1 else { r1 with notes := d.notes }

/-- Line 313: the dict comprehension
`{ws.cell(row=i, column=1).value: i for i in range(2, ws.max_row + 1)}`
over the data rows — a later row with the same first-column value
overwrites an earlier one. -/
def existing_opps (rows : List OppRow) : List (String × Nat) :=
  rows.enum.foldl (fun d p => dictSet d p.2.opportunity_id p.1) []

/-- `ExcelReportGenerator._update_opportunities_sheet`: per opportunity,
update columns 7, 8 and 10 of the matching row in place, or append a full
new row. -/
def update_opportunities_sheet (rows : List OppRow)
    (opportunities : List (String × OpportunityData)) : List OppRow :=
  let existing := existing_opps rows
  opportunities.foldl
    (fun rs kv =>
      match dictLookup kv.1 existing with
      | some i =>
        match rs.get? i with
        | some r => rs.set i (updateRowCells r kv.2)
        | none => rs
      | none => rs ++ [newOppRow kv.2])
    rows

/-! ## FileManager pickle persistence (lines 70-82) -/

/-- The file-system micro-steps of `save_pickle`: `open(filename, 'wb')`
truncates the target in place, then `pickle.dump` streams the bytes. -/
inductive SaveStep where
  | truncateFile
  | writeBytes (bs : List Nat)
deriving DecidableEq, Repr

/-- `FileManager.save_pickle` as its sequence of file-system steps, for a
serializer `ser` standing for `pickle.dump`. -/
def save_pickle_steps (ser : List String → List Nat) (data : List String) :
    List SaveStep :=
  [SaveStep.truncateFile, SaveStep.writeBytes (ser data)]

/-- Effect of one save step on the target file's contents. -/
def applySave (cur : List Nat) : SaveStep → List Nat
  | SaveStep.truncateFile => []
  | SaveStep.writeBytes bs => cur ++ bs

/-- The file contents after a crash that interrupts `save_pickle` once `k`
of its steps have completed, starting from contents `old`. -/
def crashContents (ser : List String → List Nat) (data : List String)
    (old : List Nat) (k : Nat) : List Nat :=
  ((save_pickle_steps ser data).take k).foldl applySave old

/-- `FileManager.load_pickle`: an existing file whose bytes fail to
deserialize yields the empty set (the exception is logged, not raised). -/
def load_pickle (des : List Nat → Option (List String)) (file : List Nat) :
    List String :=
  match des file with
  | some s => s
  | none => []

/-- A concrete injective set serializer standing for the pickle format:
each element as `1 :: length :: bytes`, closed by a `0` marker. -/
def encodeSet (data : List String) : List Nat :=
  data.flatMap (fun s => 1 :: (strBytes s).length :: strBytes s) ++ [0]

/-- Decoder for `encodeSet` (fuelled by the input length). -/
def decodeSetAux : Nat → List Nat → Option (List String)
  | _, [0] => some []
  | fuel + 1, 1 :: n :: rest =>
    if n ≤ rest.length then
      match decodeSetAux fuel (rest.drop n) with
      | some ss => some (⟨(rest.take n).map Char.ofNat⟩ :: ss)
      | none => none
    else none
  | _, _ => none

/-- Deserializer standing for `pickle.load`; fails on anything that is not
an `encodeSet` image — in particular on the empty byte list. -/
def decodeSet (bs : List Nat) : Option (List String) :=
  decodeSetAux bs.length bs

/-! ## The ingestion cycle (process_emails, lines 389-437, and
run_continuously, lines 479-505) -/

/-- A fetched Graph message, with the fields `process_emails` reads
(each defaulted to `""` when the provider omits it). -/
structure Msg where
  id : String
  from_name : String
  from_address : String
  subject : String
  receivedDateTime : String
  body_content : String
deriving DecidableEq, Repr

/-- The observable side-effect events of one cycle, in program order. -/
inductive Ev where
  | classifyCall (msgId : String)
  | eventCreateCall (fingerprint : String)
  | persistEventSet
  | persistMessageSet
  | folderCreateCall (oppId : String)
  | mutateEmailLog
  | mutateOpportunities
  | mutateInteractionLog
  | saveReport
deriving DecidableEq, Repr

/-- The report-table mutation/commit events of `update_report`. -/
def Ev.isReportCommit : Ev → Bool
  | Ev.mutateEmailLog => true
  | Ev.mutateOpportunities => true
  | Ev.mutateInteractionLog => true
  | Ev.saveReport => true
  | _ => false

/-- The external collaborators of one cycle: the fetched batch, the
classifier, the calendar HTTP endpoint (response per message id), folder
provisioning, the summarizer, and the previously committed interaction
log. -/
structure CycleEnv where
  messages : List Msg
  classify : Msg → Option Parsed
  eventResp : String → Option String
  createFolder : String → Option String
  summarize : String → String
  priorLog : List InteractionRow

/-- Lines 406-413: the `EmailData` built from a fetched message. -/
def buildEmailData (m : Msg) : EmailData :=
  { id := m.id, sender_name := m.from_name, sender_email := m.from_address,
    subject := m.subject, received := m.receivedDateTime,
    body_preview := m.body_content }

/-- The value stored into `email_data.calendar_event_id` for each
`create_event` outcome. -/
def outcomeToId : EventOutcome → Option String
  | EventOutcome.created i => some i
  | EventOutcome.duplicateSkipped => some "duplicate_skipped"
  | _ => none

/-- The body of the `process_emails` loop for one unseen message (lines
404-426): classify, route a meeting-bearing lead to `create_event`, and
build the `EmailData`; returns it with the updated calendar state and the
emitted side-effect events. -/
def process_one (env : CycleEnv) (cal : CalendarState) (m : Msg) :
    EmailData × CalendarState × List Ev :=
  let ed0 := buildEmailData m
  match env.classify m with
  | some p =>
    if p.is_lead then
      if p.has_meeting then
        let r := create_event (env.eventResp m.id) cal (some p)
          m.from_address
        let evs :=
          (if r.2.2 then
            [Ev.eventCreateCall (generateEventFingerprint p m.from_address)]
          else []) ++
          (match r.1 with
           | EventOutcome.created _ => [Ev.persistEventSet]
           | _ => [])
        ({ ed0 with
            is_lead := true
            parsed_data := some p
            calendar_event_id := outcomeToId r.1 },
          r.2.1, Ev.classifyCall m.id :: evs)
      else
        ({ ed0 with is_lead := true, parsed_data := some p }, cal,
          [Ev.classifyCall m.id])
    else (ed0, cal, [Ev.classifyCall m.id])
  | none => (ed0, cal, [Ev.classifyCall m.id])

/-- The per-message loop of `process_emails` (lines 399-427): skip already
processed ids, run `process_one` on the rest, collect the new `EmailData`
and add each id to the processed set. -/
def process_emails_go (env : CycleEnv) :
    List Msg → List String → CalendarState →
      List EmailData × List String × CalendarState × List Ev
  | [], processed, cal => ([], processed, cal, [])
  | m :: rest, processed, cal =>
    if processed.elem m.id then process_emails_go env rest processed cal
    else
      let step := process_one env cal m
      let tail := process_emails_go env rest (processed ++ [m.id]) step.2.1
      (step.1 :: tail.1, tail.2.1, tail.2.2.1, step.2.2 ++ tail.2.2.2)

/-- `LeadTracker.process_emails`: run the loop; when at least one message
was processed, `processed_emails.pkl` is persisted (lines 434-435) —
before any report commit. -/
def process_emails_model (env : CycleEnv) (cal : CalendarState)
    (processed : List String) :
    List EmailData × List String × CalendarState × List Ev :=
  let r := process_emails_go env env.messages processed cal
  (r.1, r.2.1, r.2.2.1,
    r.2.2.2 ++ (if r.1.isEmpty then [] else [Ev.persistMessageSet]))

/-- Projection of `CycleEnv` to the environment `generate_opportunities`
uses. -/
def genEnvOf (env : CycleEnv) : GenEnv :=
  ⟨env.createFolder, env.summarize, env.priorLog⟩

/-- One iteration of `run_continuously` (lines 491-500), as its event
trace.  `update_report` is reached only when the batch is nonempty *and*
contains at least one lead; a `generate_opportunities` exception
propagates to top level, so no report events follow it. -/
def run_cycle (env : CycleEnv) (cal : CalendarState)
    (processed : List String) : List Ev :=
  let r := process_emails_model env cal processed
  let news := r.1
  let evs := r.2.2.2
  if news.isEmpty then evs
  else
    let leads := news.filter (fun e => e.is_lead)
    if leads.isEmpty then evs
    else
      let g := run_generate_opportunities (genEnvOf env) leads
      let folderEvs := g.1.folderCalls.map Ev.folderCreateCall
      match g.2 with
      | some _ => evs ++ folderEvs
      | none => evs ++ folderEvs ++
          [Ev.mutateEmailLog, Ev.mutateOpportunities,
            Ev.mutateInteractionLog, Ev.saveReport]

/-- `_update_all_emails_log` row for one message (lines 346-349). -/
def emailLogRow (e : EmailData) : List String :=
  [e.received, e.sender_email, e.subject, if e.is_lead then "Yes" else "No"]

/-- The rows appended to the "All Emails Log" sheet during one cycle:
empty when the batch is empty, when it contains no lead (the
`if new_leads:` guard of line 498 skips `update_report` entirely), or when
`generate_opportunities` raised. -/
def cycle_email_log_rows (env : CycleEnv) (cal : CalendarState)
    (processed : List String) : List (List String) :=
  let r := process_emails_model env cal processed
  let news := r.1
  if news.isEmpty then []
  else
    let leads := news.filter (fun e => e.is_lead)
    if leads.isEmpty then []
    else
      match (run_generate_opportunities (genEnvOf env) leads).2 with
      | some _ => []
      | none => news.map emailLogRow

/-! ## Concrete fixtures used by the claim theorems -/

set_option maxRecDepth 4000000
set_option maxHeartbeats 4000000

/-- A lead classification without meeting data. -/
def leadParsed : Parsed :=
  ⟨true, some "New Lead", false, "", "", "", none, "", ""⟩

/-- A later lead classification from the same sender. -/
def leadParsedLater : Parsed :=
  ⟨true, some "Meeting Scheduled", false, "", "", "", none, "", ""⟩

/-- First lead message from `a@x.com` (received T1). -/
def annFirst : EmailData :=
  { id := "m1", sender_name := "Ann", sender_email := "a@x.com",
    subject := "Hello", received := "2025-03-01T10:00:00Z",
    body_preview := "b1", is_lead := true, parsed_data := some leadParsed }

/-- Second lead message from `a@x.com` (received T2 > T1). -/
def annSecond : EmailData :=
  { id := "m2", sender_name := "Ann", sender_email := "a@x.com",
    subject := "Re: Hello", received := "2025-03-02T09:00:00Z",
    body_preview := "b2", is_lead := true,
    parsed_data := some leadParsedLater }

/-- A benign environment: folder provisioning succeeds, the summarizer
returns a fixed string, and the committed interaction log is empty. -/
def demoGenEnv : GenEnv :=
  ⟨fun i => some ("https://drive/Lead-" ++ i), fun _ => "AI summary", []⟩

/-- C1.  The claim says a batch with two lead messages from the same sender
(T1 < T2) yields a single merged `Opportunity` reflecting the T2 message.
On the code, processing the second message evaluates
`opportunities.get(opp_id, {}).get('last_contacted', '')` on the stored
`OpportunityData` dataclass, which has no `get` attribute: the run raises
`AttributeError` and returns no opportunity map at all. -/
theorem duplicate_sender_merge_raises :
    annFirst.sender_email = annSecond.sender_email ∧
    pyLt annFirst.received annSecond.received = true ∧
    (run_generate_opportunities demoGenEnv [annFirst, annSecond]).2 =
      some PyErr.attributeError := by
  decide

/-- C2.  The claim says N ≥ 2 lead messages from one previously-unseen
sender still yield one `create_folder_for_lead` call and one record
carrying that folder link.  On the code, the first message does provision
the folder once, but the second message raises `AttributeError` before the
batch completes, so no `Opportunity` record results for the sender. -/
theorem folder_provisioned_once_then_crash :
    (run_generate_opportunities demoGenEnv [annFirst, annSecond]).1.folderCalls
        = [generateOppId "a@x.com"] ∧
    (run_generate_opportunities demoGenEnv [annFirst, annSecond]).2 =
      some PyErr.attributeError := by
  decide

/-- A message the classifier rejects (`parse_email` returns a non-lead
verdict), in a batch with no lead at all. -/
def nonLeadMsg : Msg :=
  ⟨"n1", "Bob", "b@y.com", "Newsletter", "2025-03-03T08:00:00Z", "news"⟩

/-- A cycle environment fetching exactly one unseen non-lead message. -/
def nonLeadCycleEnv : CycleEnv :=
  ⟨[nonLeadMsg], fun _ => none, fun _ => none, fun _ => none,
    fun _ => "", []⟩

/-- The empty calendar state. -/
def calEmpty : CalendarState := ⟨[], []⟩

/-- C4.  The claim says every fetched unseen message yields exactly one
email-log row, in particular in batches with no lead messages.  On the
code, `update_report` is called only under `if new_leads:` (line 498), so
a batch consisting of one unseen non-lead message appends no email-log row
at all. -/
theorem leadless_batch_email_log_skipped :
    (process_emails_model nonLeadCycleEnv calEmpty []).1.length = 1 ∧
    cycle_email_log_rows nonLeadCycleEnv calEmpty [] = [] := by
  decide

/-- An interaction log holding a single committed entry for the identifier,
whose meeting-summary cell (the stored `body_preview[:1000]`) contains
three newline characters. -/
def multiLineLog : List InteractionRow :=
  [⟨"1a2b3c4d", "2025-01-10", "line1\nline2\nline3\nline4", "", "", "N/A",
    "2025-01-10T09:00:00Z"⟩]

/-- C9.  The claim says `summarize` is invoked exactly when the number of
prior committed interaction-log entries for the identifier exceeds 3.  The
code tests `len(history.split('\n')) > 3`, counting *lines* of the joined
history: a single multi-line entry already yields 4 lines and triggers the
summarizer, while with an empty history the single empty line keeps it
off. -/
theorem summary_triggered_by_single_multiline_entry :
    (multiLineLog.filter (fun r => r.opp_id = "1a2b3c4d")).length = 1 ∧
    summaryTriggered multiLineLog "1a2b3c4d" = true ∧
    computeNotes (fun _ => "SUMMARY") multiLineLog "1a2b3c4d" = "SUMMARY" ∧
    summaryTriggered [] "1a2b3c4d" = false := by
  decide

/-- The serialized prior contents of `processed_emails.pkl`. -/
def oldSetBytes : List Nat := encodeSet ["m1"]

/-- C8 counterexample.  The claim says the persist writes the new set
atomically, so a load after a crash mid-persist yields either the old or
the new contents.  `save_pickle` opens the target with mode `'wb'`,
truncating it in place: crashing after the truncation but before the write
leaves a file holding neither the old nor the new bytes, and the next
`load_pickle` recovers the empty set rather than either value. -/
theorem save_pickle_torn_write_counterexample :
    crashContents encodeSet ["m1", "m2"] oldSetBytes 1 ≠ oldSetBytes ∧
    crashContents encodeSet ["m1", "m2"] oldSetBytes 1 ≠
      encodeSet ["m1", "m2"] ∧
    load_pickle decodeSet (crashContents encodeSet ["m1", "m2"] oldSetBytes 1)
      = [] ∧
    load_pickle decodeSet oldSetBytes = ["m1"] ∧
    load_pickle decodeSet (encodeSet ["m1", "m2"]) = ["m1", "m2"] := by
  decide

/-- A lead message whose sender address has an `'@'` but an empty domain
(`"a@"`), violating the claim's "nonempty domain token" precondition. -/
def emptyDomainEmail : EmailData :=
  { id := "m9", sender_name := "Zed", sender_email := "a@",
    subject := "s", received := "2025-03-04T00:00:00Z",
    body_preview := "b", is_lead := true, parsed_data := some leadParsed }

/-- C10 counterexample.  The claim states `generate_opportunities` is total
only when every sender address has an `'@'` followed by a *nonempty*
domain token.  For the address `"a@"` the token after `'@'` is empty, yet
`split('@')[1]` yields `""`, `split('.')[0]` yields `""` again, and the
run succeeds, producing an opportunity — only a missing `'@'` crashes. -/
theorem empty_domain_token_no_crash :
    (pySplit '@' "a@").get? 1 = some "" ∧
    (run_generate_opportunities demoGenEnv [emptyDomainEmail]).2 = none ∧
    (run_generate_opportunities demoGenEnv
      [emptyDomainEmail]).1.opportunities.length = 1 := by
  decide

/-- C6.  Two messages whose sender addresses agree after lowercasing get
the same opportunity identifier, and the interaction-log `id_gen` lambda
computes the very same truncated-hash function. -/
theorem opportunity_id_deterministic (s₁ s₂ : String)
    (h : pyLower s₁ = pyLower s₂) :
    generateOppId s₁ = generateOppId s₂ ∧
      ∀ s, generateOppId s = interactionLogIdGen s := by
  refine ⟨?_, fun s => rfl⟩
  unfold generateOppId
  rw [h]

/-- Witness for C6, at addresses differing only in case. -/
theorem opportunity_id_deterministic_witness :
    pyLower "Ann@X.com" = pyLower "ann@x.COM" ∧
    generateOppId "Ann@X.com" = generateOppId "ann@x.COM" := by
  have h : pyLower "Ann@X.com" = pyLower "ann@x.COM" := by decide
  exact ⟨h, (opportunity_id_deterministic "Ann@X.com" "ann@x.COM" h).1⟩

/-- C8 amended.  `save_pickle` writes the target in place: before any step
the file holds the old bytes, after the truncating `open(filename, 'wb')`
it is empty, and only after the full write does it hold the new bytes; a
load of the empty intermediate recovers the empty set. -/
theorem save_pickle_in_place_truncation
    (ser : List String → List Nat) (des : List Nat → Option (List String))
    (data : List String) (oldB : List Nat) (h : des [] = none) :
    crashContents ser data oldB 0 = oldB ∧
    crashContents ser data oldB 1 = [] ∧
    crashContents ser data oldB 2 = ser data ∧
    load_pickle des (crashContents ser data oldB 1) = [] := by
  refine ⟨rfl, rfl, rfl, ?_⟩
  show load_pickle des [] = []
  unfold load_pickle
  rw [h]

/-- Witness for C8's amended statement, at the concrete codec. -/
theorem save_pickle_in_place_truncation_witness :
    decodeSet [] = none ∧
    (crashContents encodeSet ["m1", "m2"] oldSetBytes 0 = oldSetBytes ∧
     crashContents encodeSet ["m1", "m2"] oldSetBytes 1 = [] ∧
     crashContents encodeSet ["m1", "m2"] oldSetBytes 2 =
       encodeSet ["m1", "m2"] ∧
     load_pickle decodeSet
       (crashContents encodeSet ["m1", "m2"] oldSetBytes 1) = []) :=
  ⟨rfl, save_pickle_in_place_truncation encodeSet decodeSet ["m1", "m2"]
    oldSetBytes rfl⟩

/-! ## Split lemmas for the company derivation (C10) -/

/-- `splitOnChar` produces one more group than there are separators. -/
theorem splitOnChar_length (sep : Char) (l : List Char) :
    (splitOnChar sep l).length = l.count sep + 1 := by
  induction l with
  | nil => rfl
  | cons c rest ih =>
    unfold splitOnChar
    cases h : splitOnChar sep rest with
    | nil => rw [h] at ih; simp at ih
    | cons g gs =>
      rw [h] at ih
      simp only [List.length_cons] at ih
      by_cases hc : c = sep
      · simp only [hc, if_pos rfl, List.length_cons, List.count_cons,
          beq_self_eq_true, if_true]
        omega
      · simp only [if_neg hc, List.length_cons, List.count_cons,
          beq_iff_eq, hc, if_false]
        omega

/-- `splitOnChar` never returns the empty list of groups. -/
theorem splitOnChar_ne_nil (sep : Char) (l : List Char) :
    splitOnChar sep l ≠ [] := by
  cases l with
  | nil => simp [splitOnChar]
  | cons c rest =>
    unfold splitOnChar
    cases h : splitOnChar sep rest with
    | nil => simp
    | cons g gs =>
      by_cases hc : c = sep
      · simp [hc]
      · simp [hc]

/-- Reduction of an `Except` bind on a success value. -/
theorem except_bind_ok {ε α β : Type} (a : α) (f : α → Except ε β) :
    (Except.ok a : Except ε α) >>= f = f a := rfl

/-- Without an `'@'` in the address, `split('@')[1]` is out of range:
the company derivation raises `IndexError`. -/
theorem companyOf_no_at (s : String) (h : pyContains s '@' = false) :
    companyOf s = Except.error PyErr.indexError := by
  have hc : s.data.count '@' = 0 := by
    rw [List.count_eq_zero]
    intro hm
    rw [pyContains, List.elem_eq_true_of_mem hm] at h
    exact Bool.noConfusion h
  have hget : (pySplit '@' s).get? 1 = none := by
    rw [List.get?_eq_none]
    simp [pySplit, splitOnChar_length, hc]
  unfold companyOf pyIndex
  rw [hget]
  rfl

/-- With an `'@'` in the address, the company derivation succeeds. -/
theorem companyOf_with_at (s : String) (h : pyContains s '@' = true) :
    ∃ c, companyOf s = Except.ok c := by
  have hc : 0 < s.data.count '@' := by
    rw [List.count_pos_iff]
    rw [pyContains] at h
    exact List.mem_of_elem_eq_true h
  obtain ⟨d, hd⟩ : ∃ d, (pySplit '@' s).get? 1 = some d := by
    cases hq : (pySplit '@' s).get? 1 with
    | some d => exact ⟨d, rfl⟩
    | none =>
      rw [List.get?_eq_none] at hq
      rw [pySplit, List.length_map, splitOnChar_length] at hq
      omega
  obtain ⟨t, ht⟩ : ∃ t, (pySplit '.' d).get? 0 = some t := by
    cases hq : (pySplit '.' d).get? 0 with
    | some t => exact ⟨t, rfl⟩
    | none =>
      rw [List.get?_eq_none] at hq
      rw [pySplit, List.length_map, splitOnChar_length] at hq
      omega
  refine ⟨pyTitle t, ?_⟩
  unfold companyOf pyIndex
  rw [hd]
  dsimp only
  simp only [except_bind_ok]
  rw [ht]
  rfl

/-- The exception status of a one-email `generate_opportunities` run is
exactly the company derivation's status: the identifier is fresh, so the
crashing merge branch is not reached. -/
theorem run_generate_opportunities_singleton (env : GenEnv)
    (em : EmailData) :
    (run_generate_opportunities env [em]).2 =
      (match companyOf em.sender_email with
       | Except.ok _ => none
       | Except.error e => some e) := by
  unfold run_generate_opportunities generate_opportunities_loop
    generate_opportunities_step
  cases h : companyOf em.sender_email with
  | ok c => simp [dictLookup, h, generate_opportunities_loop]
  | error e => simp [dictLookup, h]

/-- C10 amended.  For a one-message batch, `generate_opportunities` raises
`IndexError` exactly when the sender address contains no `'@'`; an `'@'`
with an empty domain token is fine.  In particular the empty address — the
default when the provider omits the `from` field — crashes. -/
theorem company_requires_at_sign (env : GenEnv) (em : EmailData) :
    (run_generate_opportunities env [em]).2 =
      (if pyContains em.sender_email '@' then none
       else some PyErr.indexError) := by
  rw [run_generate_opportunities_singleton]
  cases h : pyContains em.sender_email '@' with
  | false => rw [companyOf_no_at _ h]; simp
  | true =>
    obtain ⟨c, hc⟩ := companyOf_with_at _ h
    rw [hc]
    simp

/-- A lead message with the empty sender address (provider omitted the
`from` field). -/
def noFromEmail : EmailData :=
  { id := "m0", sender_name := "", sender_email := "", subject := "",
    received := "", body_preview := "", is_lead := true,
    parsed_data := some leadParsed }

/-- Witness for C10's amended statement: the empty sender address makes
the run raise `IndexError`. -/
theorem company_requires_at_sign_witness :
    (run_generate_opportunities demoGenEnv [noFromEmail]).2 =
      some PyErr.indexError := by
  rw [company_requires_at_sign demoGenEnv noFromEmail]
  decide

/-! ## Calendar dedup lemmas (C5) -/

/-- `pyLower` distributes over string append. -/
theorem pyLower_append (a b : String) :
    pyLower (a ++ b) = pyLower a ++ pyLower b := by
  unfold pyLower
  show String.mk ((a.data ++ b.data).map pyLowerChar) = _
  rw [List.map_append]
  rfl

/-- `pyLower` over the fingerprint's `'|'`-joined quadruple. -/
theorem pyLower_append_chain (a b c d : String) :
    pyLower (a ++ "|" ++ b ++ "|" ++ c ++ "|" ++ d) =
      pyLower a ++ "|" ++ pyLower b ++ "|" ++ pyLower c ++ "|" ++
        pyLower d := by
  simp only [pyLower_append]
  rfl

/-- An applicable call whose fingerprint is new and whose HTTP response is
a failure changes nothing: no fingerprint is recorded, nothing is
persisted. -/
theorem create_event_fail_step (p : Parsed) (em : String)
    (st : CalendarState) (ha : eventApplicable p = true)
    (hn : generateEventFingerprint p em ∉ st.processed_events) :
    create_event none st (some p) em =
      (EventOutcome.failedCreate, st, true) := by
  unfold create_event
  simp [ha, hn]

/-- An applicable call whose fingerprint is already recorded returns the
duplicate outcome without issuing the external call. -/
theorem create_event_dup_step (resp : Option String) (p : Parsed)
    (em : String) (st : CalendarState) (ha : eventApplicable p = true)
    (hm : generateEventFingerprint p em ∈ st.processed_events) :
    create_event resp st (some p) em =
      (EventOutcome.duplicateSkipped, st, false) := by
  unfold create_event
  simp [ha, hm]

/-- An applicable call with a new fingerprint and a 201 response records
the fingerprint and persists the grown set synchronously. -/
theorem create_event_success_step (eid : String) (p : Parsed) (em : String)
    (st : CalendarState) (ha : eventApplicable p = true)
    (hn : generateEventFingerprint p em ∉ st.processed_events) :
    create_event (some eid) st (some p) em =
      (EventOutcome.created eid,
        ⟨st.processed_events ++ [generateEventFingerprint p em],
          st.savedSets ++
            [st.processed_events ++ [generateEventFingerprint p em]]⟩,
        true) := by
  unfold create_event
  simp [ha, hn]

/-- Once the fingerprint is in the set, any sequence of further calls with
that fingerprint returns only duplicate-skipped outcomes, issues no
external call, and leaves the state untouched. -/
theorem runEvents_all_dup (st : CalendarState) (fp : String)
    (calls : List (Parsed × String × Option String))
    (hm : fp ∈ st.processed_events)
    (hall : ∀ c ∈ calls, eventApplicable c.1 = true ∧
      generateEventFingerprint c.1 c.2.1 = fp) :
    runEvents st calls =
      (st, calls.map (fun _ => (EventOutcome.duplicateSkipped, false))) := by
  induction calls with
  | nil => rfl
  | cons c rest ih =>
    obtain ⟨p, em, resp⟩ := c
    obtain ⟨ha, hfp⟩ := hall (p, em, resp) (List.mem_cons_self _ _)
    have hstep := create_event_dup_step resp p em st ha (by rw [hfp]; exact hm)
    unfold runEvents
    rw [hstep]
    dsimp only
    rw [ih (fun c hc => hall c (List.mem_cons_of_mem _ hc))]
    rfl

/-- C5.  Over any sequence of `create_event` calls sharing one fingerprint
(applicable classifications, identical in subject/date/start-time/attendee
after lowercasing): failed HTTP attempts record nothing, the first
successful call creates the event, records the fingerprint and persists
the grown set synchronously, and every later call returns the
duplicate-skipped outcome without issuing an external call.  Moreover the
fingerprint is invariant under case: classifications equal in those four
fields after lowercasing yield the same fingerprint. -/
theorem create_event_dedup_exactly_once (st : CalendarState) (fp : String)
    (calls₁ calls₂ : List (Parsed × String × Option String))
    (p : Parsed) (em eid : String)
    (hall : ∀ c ∈ calls₁ ++ (p, em, some eid) :: calls₂,
      eventApplicable c.1 = true ∧
        generateEventFingerprint c.1 c.2.1 = fp)
    (hfail : ∀ c ∈ calls₁, c.2.2 = (none : Option String))
    (hnew : fp ∉ st.processed_events) :
    runEvents st (calls₁ ++ (p, em, some eid) :: calls₂) =
      (⟨st.processed_events ++ [fp],
          st.savedSets ++ [st.processed_events ++ [fp]]⟩,
        calls₁.map (fun _ => (EventOutcome.failedCreate, true)) ++
          (EventOutcome.created eid, true) ::
            calls₂.map (fun _ => (EventOutcome.duplicateSkipped, false))) ∧
    (∀ q r : Parsed, ∀ e₁ e₂ : String,
      pyLower q.subject = pyLower r.subject →
      pyLower q.date = pyLower r.date →
      pyLower q.start_time = pyLower r.start_time →
      pyLower e₁ = pyLower e₂ →
      generateEventFingerprint q e₁ = generateEventFingerprint r e₂) := by
  constructor
  · induction calls₁ with
    | nil =>
      have hmain := hall (p, em, some eid) (by simp)
      have ha : eventApplicable p = true := hmain.1
      have hfp : generateEventFingerprint p em = fp := hmain.2
      have hn : generateEventFingerprint p em ∉ st.processed_events := by
        rw [hfp]; exact hnew
      have hstep := create_event_success_step eid p em st ha hn
      rw [hfp] at hstep
      simp only [List.nil_append, List.map_nil]
      unfold runEvents
      rw [hstep]
      dsimp only
      have hmem : fp ∈ st.processed_events ++ [fp] := by simp
      rw [runEvents_all_dup
        ⟨st.processed_events ++ [fp],
          st.savedSets ++ [st.processed_events ++ [fp]]⟩ fp calls₂ hmem
        (fun c hc => hall c (by simp [hc]))]
    | cons c rest ih =>
      obtain ⟨q, emq, respq⟩ := c
      have hr : respq = none := hfail (q, emq, respq) (List.mem_cons_self _ _)
      subst hr
      have hmain := hall (q, emq, none) (by simp)
      have ha : eventApplicable q = true := hmain.1
      have hfq : generateEventFingerprint q emq = fp := hmain.2
      have hn : generateEventFingerprint q emq ∉ st.processed_events := by
        rw [hfq]; exact hnew
      have hstep := create_event_fail_step q emq st ha hn
      simp only [List.cons_append]
      unfold runEvents
      rw [hstep]
      dsimp only
      rw [ih
        (fun c hc => hall c (by
          simp only [List.cons_append]
          exact List.mem_cons_of_mem _ hc))
        (fun c hc => hfail c (List.mem_cons_of_mem _ hc))]
      simp
  · intro q r e₁ e₂ h₁ h₂ h₃ h₄
    unfold generateEventFingerprint
    rw [pyLower_append_chain q.subject q.date q.start_time e₁,
      pyLower_append_chain r.subject r.date r.start_time e₂, h₁, h₂, h₃, h₄]

/-- A meeting-bearing lead classification. -/
def meetParsed : Parsed :=
  ⟨true, some "Meeting Scheduled", true, "Kickoff", "2025-03-01", "10:00",
    some "intro call", "", ""⟩

/-- Witness for C5: one failed attempt, then a 201, then a duplicate. -/
theorem create_event_dedup_exactly_once_witness :
    runEvents ⟨[], []⟩
      [(meetParsed, "a@x.com", none), (meetParsed, "a@x.com", some "EV1"),
        (meetParsed, "a@x.com", some "EV2")] =
      (⟨[generateEventFingerprint meetParsed "a@x.com"],
          [[generateEventFingerprint meetParsed "a@x.com"]]⟩,
        [(EventOutcome.failedCreate, true),
          (EventOutcome.created "EV1", true),
          (EventOutcome.duplicateSkipped, false)]) := by
  have h := (create_event_dedup_exactly_once ⟨[], []⟩
      (generateEventFingerprint meetParsed "a@x.com")
      [(meetParsed, "a@x.com", none)] [(meetParsed, "a@x.com", some "EV2")]
      meetParsed "a@x.com" "EV1"
      (by
        intro c hc
        simp only [List.cons_append, List.nil_append, List.mem_cons,
          List.not_mem_nil, or_false] at hc
        rcases hc with h1 | h1 | h1 <;> subst h1 <;> exact ⟨rfl, rfl⟩)
      (by
        intro c hc
        simp only [List.mem_cons, List.not_mem_nil, or_false] at hc
        subst hc
        rfl)
      (by simp)).1
  simpa using h

/-! ## Dict and upsert lemmas (C7) -/

/-- Looking a key up after a `dictSet`. -/
theorem dictLookup_dictSet {β : Type} (d : List (String × β))
    (kq kn : String) (v : β) :
    dictLookup kq (dictSet d kn v) =
      if kn = kq then some v else dictLookup kq d := by
  induction d with
  | nil => rfl
  | cons a rest ih =>
    obtain ⟨kh, vh⟩ := a
    by_cases hn : kh = kn
    · subst hn
      by_cases hq : kh = kq <;> simp [dictSet, dictLookup, hq]
    · by_cases hq : kh = kq
      · subst hq
        have : ¬ kn = kh := fun hx => hn hx.symm
        simp [dictSet, dictLookup, hn, this]
      · simp [dictSet, dictLookup, hn, hq, ih]

/-- A key is absent from the fold of `dictSet`s exactly when no list entry
carries it and it was absent initially. -/
theorem dictLookup_fold_none (k : String) (l : List (Nat × OppRow))
    (d0 : List (String × Nat)) :
    dictLookup k
        (l.foldl (fun d p => dictSet d p.2.opportunity_id p.1) d0) = none ↔
      (∀ p ∈ l, p.2.opportunity_id ≠ k) ∧ dictLookup k d0 = none := by
  induction l generalizing d0 with
  | nil => simp
  | cons a l ih =>
    simp only [List.foldl_cons, List.mem_cons]
    rw [ih]
    rw [dictLookup_dictSet]
    constructor
    · rintro ⟨h1, h2⟩
      by_cases ha : a.2.opportunity_id = k
      · rw [if_pos ha] at h2; exact absurd h2 (by simp)
      · rw [if_neg ha] at h2
        exact ⟨fun p hp => by
          rcases hp with hp | hp
          · subst hp; exact ha
          · exact h1 p hp, h2⟩
    · rintro ⟨h1, h2⟩
      have ha : a.2.opportunity_id ≠ k := h1 a (Or.inl rfl)
      exact ⟨fun p hp => h1 p (Or.inr hp), by rw [if_neg ha]; exact h2⟩

/-- A successful lookup in the fold of `dictSet`s comes from a matching
list entry or from the initial dict. -/
theorem dictLookup_fold_some (k : String) (l : List (Nat × OppRow))
    (d0 : List (String × Nat)) (i : Nat)
    (h : dictLookup k
      (l.foldl (fun d p => dictSet d p.2.opportunity_id p.1) d0) = some i) :
    (∃ p ∈ l, p.1 = i ∧ p.2.opportunity_id = k) ∨
      dictLookup k d0 = some i := by
  induction l generalizing d0 with
  | nil => exact Or.inr h
  | cons a l ih =>
    simp only [List.foldl_cons] at h
    rcases ih _ h with hl | hd
    · obtain ⟨p, hp, hpi, hpk⟩ := hl
      exact Or.inl ⟨p, List.mem_cons_of_mem _ hp, hpi, hpk⟩
    · rw [dictLookup_dictSet] at hd
      by_cases ha : a.2.opportunity_id = k
      · rw [if_pos ha] at hd
        exact Or.inl ⟨a, List.mem_cons_self _ _, Option.some.inj hd, ha⟩
      · rw [if_neg ha] at hd
        exact Or.inr hd

/-- Membership in `List.enum` determines the element at that index. -/
theorem get?_of_mem_enum {α : Type} (l : List α) (p : Nat × α)
    (h : p ∈ l.enum) : l.get? p.1 = some p.2 :=
  List.mem_enum_iff_get?.mp h

/-- C7.  One upsert into the Opportunity Master: when no data row carries
the identifier in column 1, exactly one full new row is appended and all
existing rows are untouched; when a matching row exists, some matching row
is replaced in place (`List.set`, all other rows unchanged) by
`updateRowCells`, which changes only the lead-status and last-contacted
cells, plus the notes cell when the new notes value is nonempty. -/
theorem opportunities_upsert_frame (rows : List OppRow) (k : String)
    (d : OpportunityData) :
    ((∀ r ∈ rows, r.opportunity_id ≠ k) →
      update_opportunities_sheet rows [(k, d)] = rows ++ [newOppRow d]) ∧
    ((∃ r ∈ rows, r.opportunity_id = k) →
      ∃ i r, rows.get? i = some r ∧ r.opportunity_id = k ∧
        update_opportunities_sheet rows [(k, d)] =
          rows.set i (updateRowCells r d)) ∧
    (∀ r : OppRow,
      (updateRowCells r d).opportunity_id = r.opportunity_id ∧
      (updateRowCells r d).contact_name = r.contact_name ∧
      (updateRowCells r d).company = r.company ∧
      (updateRowCells r d).email = r.email ∧
      (updateRowCells r d).phone = r.phone ∧
      (updateRowCells r d).opportunity_title = r.opportunity_title ∧
      (updateRowCells r d).folder_cell = r.folder_cell ∧
      (updateRowCells r d).lead_status = d.lead_status ∧
      (updateRowCells r d).last_contacted = d.last_contacted ∧
      (updateRowCells r d).notes =
        (if d.notes = "" then r.notes else d.notes)) := by
  refine ⟨?_, ?_, ?_⟩
  · intro hnone
    have hlook : dictLookup k (existing_opps rows) = none := by
      rw [existing_opps, dictLookup_fold_none]
      refine ⟨fun p hp => ?_, rfl⟩
      have : p.2 ∈ rows := by
        have hm : p.2 ∈ rows.enum.map Prod.snd := List.mem_map_of_mem _ hp
        rwa [List.enum_map_snd] at hm
      exact hnone p.2 this
    unfold update_opportunities_sheet
    simp [hlook]
  · intro hsome
    obtain ⟨r0, hr0, hk0⟩ := hsome
    cases hlook : dictLookup k (existing_opps rows) with
    | none =>
      rw [existing_opps, dictLookup_fold_none] at hlook
      obtain ⟨i0, hi0⟩ := List.mem_iff_get?.mp hr0
      have : (i0, r0) ∈ rows.enum := List.mem_enum_iff_get?.mpr hi0
      exact absurd hk0 (hlook.1 (i0, r0) this)
    | some i =>
      rcases dictLookup_fold_some k rows.enum [] i hlook with hm | hd
      · obtain ⟨p, hp, hpi, hpk⟩ := hm
        subst hpi
        have hget := get?_of_mem_enum rows p hp
        refine ⟨p.1, p.2, hget, hpk, ?_⟩
        unfold update_opportunities_sheet
        simp only [List.foldl_cons, List.foldl_nil, hlook, hget]
      · exact absurd hd (by simp [dictLookup])
  · intro r
    unfold updateRowCells
    by_cases hn : d.notes = "" <;> simp [hn]

/-- An existing master-sheet row for another sender. -/
def wRow0 : OppRow :=
  ⟨"opp0", "Bo", "Y", "bo@y.com", "", "Opportunity with Bo", "New Lead",
    "2025-01-01T00:00:00Z", "link0", ""⟩

/-- An existing master-sheet row for the upserted identifier. -/
def wRow1 : OppRow :=
  ⟨"opp1", "Ann", "X", "a@x.com", "", "Opportunity with Ann", "New Lead",
    "2025-01-02T00:00:00Z", "link1", ""⟩

/-- The upserted opportunity data, with nonempty notes. -/
def wOppData : OpportunityData :=
  ⟨"opp1", "Ann", "X", "a@x.com", "", "Opportunity with Ann",
    "Meeting Scheduled", "Summary notes", "2025-03-02T09:00:00Z",
    some "link1"⟩

/-- Witness for C7, on a two-row sheet whose second row matches. -/
theorem opportunities_upsert_frame_witness :
    (∃ i r, [wRow0, wRow1].get? i = some r ∧ r.opportunity_id = "opp1" ∧
      update_opportunities_sheet [wRow0, wRow1] [("opp1", wOppData)] =
        [wRow0, wRow1].set i (updateRowCells r wOppData)) ∧
    (updateRowCells wRow1 wOppData).company = wRow1.company ∧
    (updateRowCells wRow1 wOppData).lead_status = wOppData.lead_status := by
  have h := opportunities_upsert_frame [wRow0, wRow1] "opp1" wOppData
  exact ⟨h.2.1 ⟨wRow1, by decide, by decide⟩, (h.2.2 wRow1).2.2.1,
    (h.2.2 wRow1).2.2.2.2.2.2.2.1⟩

/-! ## Event-ordering lemmas (C3) -/

/-- `process_one` never emits a report-table event. -/
theorem process_one_events_not_report (env : CycleEnv) (cal : CalendarState)
    (m : Msg) :
    ∀ e ∈ (process_one env cal m).2.2, e.isReportCommit = false := by
  intro e he
  unfold process_one at he
  dsimp only at he
  split at he
  · split at he
    · split at he
      · dsimp only at he
        rw [List.mem_cons] at he
        rcases he with he | he
        · subst he; rfl
        · rw [List.mem_append] at he
          rcases he with he | he
          · split at he
            · simp at he; subst he; rfl
            · simp at he
          · split at he
            · simp at he; subst he; rfl
            · simp at he
      · simp at he; subst he; rfl
    · simp at he; subst he; rfl
  · simp at he; subst he; rfl

/-- The `process_emails` loop never emits a report-table event. -/
theorem process_go_events_not_report (env : CycleEnv) (msgs : List Msg) :
    ∀ processed cal,
      ∀ e ∈ (process_emails_go env msgs processed cal).2.2.2,
        e.isReportCommit = false := by
  induction msgs with
  | nil => intro processed cal e he; simp [process_emails_go] at he
  | cons m rest ih =>
    intro processed cal e he
    unfold process_emails_go at he
    rcases hp : processed.elem m.id
    · simp only [hp, Bool.false_eq_true, if_false] at he
      rw [List.mem_append] at he
      rcases he with he | he
      · exact process_one_events_not_report env cal m e he
      · exact ih _ _ e he
    · simp only [hp, if_true] at he
      exact ih _ _ e he

/-- `process_emails` (including its final dedup-set persist) never emits a
report-table event. -/
theorem process_model_events_not_report (env : CycleEnv)
    (cal : CalendarState) (processed : List String) :
    ∀ e ∈ (process_emails_model env cal processed).2.2.2,
      e.isReportCommit = false := by
  intro e he
  unfold process_emails_model at he
  dsimp only at he
  rw [List.mem_append] at he
  rcases he with he | he
  · exact process_go_events_not_report env env.messages processed cal e he
  · rcases hn : (process_emails_go env env.messages processed cal).1.isEmpty
    · rw [hn] at he
      simp at he
      subst he
      rfl
    · rw [hn] at he
      simp at he

/-- C3 amended.  In every cycle the trace splits as a prefix holding no
report-table event (`process_emails`, which persists the dedup set at its
end) followed by a suffix holding no dedup-set persist: every
`ProcessedMessageSet` persist happens strictly before every report-table
mutation or commit, not after. -/
theorem dedup_persist_precedes_report_commit (env : CycleEnv)
    (cal : CalendarState) (processed : List String) :
    ∃ t1 t2, run_cycle env cal processed = t1 ++ t2 ∧
      (∀ e ∈ t1, e.isReportCommit = false) ∧
      Ev.persistMessageSet ∉ t2 := by
  unfold run_cycle
  dsimp only
  rcases h1 : (process_emails_model env cal processed).1.isEmpty
  · rw [if_neg (by simp [h1])]
    rcases h2 : ((process_emails_model env cal processed).1.filter
        (fun e => e.is_lead)).isEmpty
    · rw [if_neg (by simp [h2])]
      rcases hg : (run_generate_opportunities (genEnvOf env)
          ((process_emails_model env cal processed).1.filter
            (fun e => e.is_lead))).2 with _ | e
      · dsimp only
        refine ⟨(process_emails_model env cal processed).2.2.2,
          List.map Ev.folderCreateCall
              (run_generate_opportunities (genEnvOf env)
                ((process_emails_model env cal processed).1.filter
                  (fun e => e.is_lead))).1.folderCalls ++
            [Ev.mutateEmailLog, Ev.mutateOpportunities,
              Ev.mutateInteractionLog, Ev.saveReport],
          List.append_assoc _ _ _,
          process_model_events_not_report env cal processed, ?_⟩
        simp [List.mem_append, List.mem_map]
      · dsimp only
        refine ⟨(process_emails_model env cal processed).2.2.2, _, rfl,
          process_model_events_not_report env cal processed, ?_⟩
        simp [List.mem_map]
    · rw [if_pos (by simp [h2])]
      exact ⟨(process_emails_model env cal processed).2.2.2, [],
        (List.append_nil _).symm,
        process_model_events_not_report env cal processed,
        List.not_mem_nil _⟩
  · rw [if_pos (by simp [h1])]
    exact ⟨(process_emails_model env cal processed).2.2.2, [],
      (List.append_nil _).symm,
      process_model_events_not_report env cal processed,
      List.not_mem_nil _⟩

/-- A fetched message the classifier accepts as a meeting-less lead. -/
def leadMsg : Msg :=
  ⟨"m1", "Ann", "a@x.com", "Hello", "2025-03-01T10:00:00Z", "Body"⟩

/-- A cycle environment fetching one unseen lead message. -/
def leadCycleEnv : CycleEnv :=
  ⟨[leadMsg], fun _ => some leadParsed, fun _ => none,
    fun i => some ("https://drive/Lead-" ++ i), fun _ => "AI summary", []⟩

/-- The ordering property C1 claims of a cycle trace: any persist of the
`ProcessedMessageSet` happens only after every report-table event. -/
def dedupPersistedOnlyAfterCommits (t : List Ev) : Prop :=
  ∀ i j, (hi : i < t.length) → (hj : j < t.length) →
    t.get ⟨i, hi⟩ = Ev.persistMessageSet →
    (t.get ⟨j, hj⟩).isReportCommit = true → j < i

/-- C3 counterexample.  On a batch with one unseen lead message, the cycle
trace persists `processed_emails.pkl` at position 1, before the report
mutations and commit at positions 3-6: the claimed
commit-before-persist ordering is violated. -/
theorem dedup_persisted_before_commit_counterexample :
    ¬ dedupPersistedOnlyAfterCommits (run_cycle leadCycleEnv calEmpty []) := by
  intro h
  have h13 := h 1 3 (by decide) (by decide) (by decide) (by decide)
  omega

/-- Witness for C3's amended statement, at the one-lead cycle. -/
theorem dedup_persist_precedes_report_commit_witness :
    ∃ t1 t2, run_cycle leadCycleEnv calEmpty [] = t1 ++ t2 ∧
      (∀ e ∈ t1, e.isReportCommit = false) ∧
      Ev.persistMessageSet ∉ t2 :=
  dedup_persist_precedes_report_commit leadCycleEnv calEmpty []

end EmailBot
